import Mathlib

/-!
Verification of the s01 agent-loop core of the Learn-Claude-Code repository.

The repository realizes the agent core twice:

* an interactive variant (`agents/s01_agent_loop/main.go`): `agentLoop`,
  `runBashIn`, `runBash`, with the safety gate `dangerousPatterns`;
* a registry-based variant (`pkg/loop/agent.go`, `pkg/tools`, the s01 main
  using them): `loop.Run`, `tools.Registry` with `Register` / `Definitions` /
  `Dispatch`, and the `bashHandler` tool.

The embedding below translates both variants.  External collaborators are
modelled as oracles supplied as explicit arguments:

* the model client (`llm.Complete`) is a list of functions from the request
  message list to a `ModelResult` — one entry per call, consumed in order;
  an exhausted list behaves like the failing mock client of the test suite;
* the subprocess layer (`exec.Command("bash", "-c", command).CombinedOutput`)
  is a function `Exec` from the command string to an `ExecResult` holding the
  combined captured output and the optional process error;
* `json.Unmarshal` of the raw tool-call argument text is modelled by the
  `ArgParse` field of a `ToolCall`: either the parsed string-keyed object or
  the parse-error message.

Strings are modelled at the character level; byte positions in the Go code
(`result[:50000]`) become character positions, which agree on ASCII data.
-/

namespace LearnCC

/-- Message roles of the OpenAI chat protocol, as used by the Go code. -/
inductive Role where
  | system
  | user
  | assistant
  | tool
deriving DecidableEq, Repr

/-- Value of one field of a parsed JSON argument object.  The Go code only
ever performs the type assertion `args["command"].(string)`, so the model
distinguishes string values from everything else. -/
inductive GoValue where
  | str (s : String)
  | other
deriving DecidableEq, Repr

/-- Outcome of `json.Unmarshal` on the raw argument text of a tool call:
either the parsed object (a string-keyed field list) or the parse error. -/
inductive ArgParse where
  | ok (fields : List (String × GoValue))
  | fail (errMsg : String)
deriving DecidableEq, Repr

/-- One requested tool invocation inside an assistant message
(`openai.ChatCompletionMessageToolCall`). -/
structure ToolCall where
  id : String
  name : String
  arguments : ArgParse
deriving DecidableEq, Repr

/-- One entry of the conversation history
(`openai.ChatCompletionMessageParamUnion`). -/
structure Message where
  role : Role
  content : String
  toolCalls : List ToolCall
  toolCallId : String
deriving DecidableEq, Repr

/-- Constructor mirroring `openai.SystemMessage`. -/
def systemMessage (s : String) : Message :=
  ⟨Role.system, s, [], ""⟩

/-- Constructor mirroring `openai.UserMessage`. -/
def userMessage (s : String) : Message :=
  ⟨Role.user, s, [], ""⟩

/-- Constructor mirroring `openai.ToolMessage content id`. -/
def toolMessage (content id : String) : Message :=
  ⟨Role.tool, content, [], id⟩

/-- The message carried by a model response (`choice.Message`). -/
structure ChatMessage where
  content : String
  toolCalls : List ToolCall
deriving DecidableEq, Repr

/-- Conversion of a response message into a history entry, mirroring
`choice.Message.ToParam()`. -/
def assistantMessage (m : ChatMessage) : Message :=
  ⟨Role.assistant, m.content, m.toolCalls, ""⟩

/-- The first choice of a model response: finish reason plus message. -/
structure Choice where
  finishReason : String
  message : ChatMessage
deriving DecidableEq, Repr

/-- Result of one `Complete` call on the model client: the first choice of a
successful response, or the transport error. -/
inductive ModelResult where
  | ok (choice : Choice)
  | fail (err : String)

/-- One scripted reply of the model client: a function from the request
message list to the result of that call. -/
def LLM : Type := List Message → ModelResult

/-- Combined captured output and optional process error of one subprocess
run (`cmd.CombinedOutput()`). -/
structure ExecResult where
  output : String
  err : Option String
deriving DecidableEq, Repr

/-- Oracle for the subprocess layer: command string to captured result.  The
working directory of the Go code is absorbed into the oracle. -/
def Exec : Type := String → ExecResult

/-- The fixed denylist of `main.go`. -/
def dangerousPatterns : List String :=
  ["rm -rf /", "sudo", "shutdown", "reboot", "> /dev/"]

/-- Substring test mirroring `strings.Contains s pattern`: some index of `s`
starts an occurrence of `pattern`. -/
def strContains (s pattern : String) : Bool :=
  (List.range (s.data.length + 1)).any
    (fun i => decide ((s.data.drop i).take pattern.data.length = pattern.data))

/-- The safety gate of `runBashIn`: some denylisted pattern occurs in the
command. -/
def isDangerous (command : String) : Bool :=
  dangerousPatterns.any (fun pattern => strContains command pattern)

/-- Character-level truncation mirroring the Go slice `s[:n]`. -/
def strTake (s : String) (n : Nat) : String :=
  ⟨s.data.take n⟩

/-- Whitespace trimming mirroring `strings.TrimSpace`. -/
def trimSpace (s : String) : String :=
  ⟨((s.data.dropWhile Char.isWhitespace).reverse.dropWhile Char.isWhitespace).reverse⟩

/-- Final length cap of `runBashIn`: output beyond 50000 characters is cut,
with no marker. -/
def capOutput (s : String) : String :=
  if s.length > 50000 then strTake s 50000 else s

/-- Output shaping of `runBashIn` after the gate: trim, substitute the
process error when the trimmed output is empty, substitute the no-output
sentinel, cap the length. -/
def formatOutput (r : ExecResult) : String :=
  let result0 := trimSpace r.output
  let result1 :=
    match r.err with
    | some e => if result0 = "" then "Error: " ++ e else result0
    | none => result0
  let result2 := if result1 = "" then "(no output)" else result1
  capOutput result2

/-- The interactive bash tool (`runBashIn` of `main.go`): gate first, then
run and shape the captured output. -/
def runBashIn (ex : Exec) (command : String) : String :=
  if isDangerous command then "Error: Dangerous command blocked"
  else formatOutput (ex command)

/-- The convenience wrapper `runBash` of `main.go` (directory defaulting is
absorbed into the oracle). -/
def runBash (ex : Exec) (command : String) : String :=
  runBashIn ex command

/-- Extraction mirroring the lenient `command, _ := args["command"].(string)`
of the interactive loop: missing or non-string fields default to the empty
string. -/
def getCommand (args : List (String × GoValue)) : String :=
  match args.lookup "command" with
  | some (GoValue.str s) => s
  | _ => ""

/-- Per-call body of the interactive loop: a parse failure becomes an
error-tagged tool message, otherwise bash runs on the extracted command. -/
def execToolCall (ex : Exec) (tc : ToolCall) : Message :=
  match tc.arguments with
  | ArgParse.fail e => toolMessage ("error: " ++ e) tc.id
  | ArgParse.ok args => toolMessage (runBashIn ex (getCommand args)) tc.id

/-- The interactive agent loop (`agentLoop` of `main.go`).  Each iteration
sends the system prompt prepended to the current history, appends the
assistant message, returns on a final answer or on transport failure, and
otherwise appends one tool message per requested call and repeats. -/
def agentLoop (ex : Exec) (script : List LLM) (system : String)
    (messages : List Message) : List Message :=
  match script with
  | [] => messages
  | llm :: rest =>
    match llm (systemMessage system :: messages) with
    | ModelResult.fail _ => messages
    | ModelResult.ok choice =>
      let messages1 := messages ++ [assistantMessage choice.message]
      if choice.finishReason ≠ "tool_calls" then messages1
      else
        agentLoop ex rest system
          (messages1 ++ choice.message.toolCalls.map (execToolCall ex))

/-- Handler signature of the tool registry (`tools.Handler`): parsed
arguments to output text or error. -/
def Handler : Type := List (String × GoValue) → Except String String

/-- Wire-format tool definition; the parameter schema is opaque to the core
and is omitted. -/
structure ToolDefinition where
  name : String
  description : String
deriving DecidableEq, Repr

/-- The tool registry (`tools.Registry`): definitions in registration order
plus the name-to-handler map. -/
structure Registry where
  definitions : List ToolDefinition
  handlers : String → Option Handler

/-- The empty registry (`tools.New`). -/
def Registry.new : Registry :=
  ⟨[], fun _ => none⟩

/-- Registration (`Registry.Register`): the definition is appended and the
map entry for its name is overwritten. -/
def Registry.Register (r : Registry) (d : ToolDefinition) (h : Handler) :
    Registry :=
  { definitions := r.definitions ++ [d],
    handlers := fun n => if n = d.name then some h else r.handlers n }

/-- Accessor (`Registry.Definitions`): all definitions in registration
order. -/
def Registry.Definitions (r : Registry) : List ToolDefinition :=
  r.definitions

/-- Lookup plus invocation (`Registry.Dispatch`): absent names signal the
tool-not-found error, present names run the handler unchanged. -/
def Registry.Dispatch (r : Registry) (name : String)
    (args : List (String × GoValue)) : Except String String :=
  match r.handlers name with
  | none => Except.error ("unknown tool: " ++ name)
  | some h => h args

/-- Execute-and-format path of the registry bash tool: a process error is
folded into the text (with a nil Go error), successful output beyond 4000
characters is cut and a truncation marker is appended. -/
def bashExecute (ex : Exec) (command : String) : String :=
  let r := ex command
  match r.err with
  | some e => "exit error: " ++ e ++ "\n" ++ r.output
  | none =>
    if r.output.length > 4000 then strTake r.output 4000 ++ "\n...(truncated)"
    else r.output

/-- The registry bash tool (`bashHandler` of the s01 registry main): a
non-string command field is rejected, otherwise the command is executed with
no safety gate. -/
def bashHandler (ex : Exec) (args : List (String × GoValue)) :
    Except String String :=
  match args.lookup "command" with
  | some (GoValue.str command) => Except.ok (bashExecute ex command)
  | _ => Except.error "command must be a string"

/-- Tool output as recorded by `loop.Run`: the dispatch result, or the
error-tagged dispatch failure. -/
def dispatchOutput (reg : Registry) (tc : ToolCall)
    (args : List (String × GoValue)) : String :=
  match reg.Dispatch tc.name args with
  | Except.error e => "error: " ++ e
  | Except.ok out => out

/-- Inner tool loop of `loop.Run`: the first parse failure aborts with the
history accumulated so far, otherwise each call appends the dispatch output
(or the error-tagged dispatch failure) as one tool message. -/
def runToolCalls (reg : Registry) (tcs : List ToolCall)
    (messages : List Message) :
    Except (List Message × String) (List Message) :=
  match tcs with
  | [] => Except.ok messages
  | tc :: rest =>
    match tc.arguments with
    | ArgParse.fail e =>
      Except.error
        (messages, "failed to parse tool args for " ++ tc.name ++ ": " ++ e)
    | ArgParse.ok args =>
      runToolCalls reg rest
        (messages ++ [toolMessage (dispatchOutput reg tc args) tc.id])

/-- The registry-based agent loop (`loop.Run` of `pkg/loop/agent.go`).  The
caller provides the full history, system prompt included; the loop returns
the history together with the optional fatal error. -/
def Run (reg : Registry) (script : List LLM) (messages : List Message) :
    List Message × Option String :=
  match script with
  | [] => (messages, some "API call failed: no more responses")
  | llm :: rest =>
    match llm messages with
    | ModelResult.fail e => (messages, some ("API call failed: " ++ e))
    | ModelResult.ok choice =>
      let messages1 := messages ++ [assistantMessage choice.message]
      if choice.finishReason ≠ "tool_calls" then (messages1, none)
      else
        match runToolCalls reg choice.message.toolCalls messages1 with
        | Except.error (msgs, e) => (msgs, some e)
        | Except.ok msgs => Run reg rest msgs

/-- The message built for one tool call always carries the tool role. -/
lemma execToolCall_role (ex : Exec) (tc : ToolCall) :
    (execToolCall ex tc).role = Role.tool := by
  cases h : tc.arguments <;> simp [execToolCall, h, toolMessage]

/-- The message built for one tool call is correlated by the call id. -/
lemma execToolCall_id (ex : Exec) (tc : ToolCall) :
    (execToolCall ex tc).toolCallId = tc.id := by
  cases h : tc.arguments <;> simp [execToolCall, h, toolMessage]

/-- Unfolding of a failing model call in the interactive loop. -/
lemma agentLoop_fail (ex : Exec) (llm : LLM) (rest : List LLM)
    (system : String) (messages : List Message) (e : String)
    (hres : llm (systemMessage system :: messages) = ModelResult.fail e) :
    agentLoop ex (llm :: rest) system messages = messages := by
  simp [agentLoop, hres]

/-- Unfolding of a final text response in the interactive loop. -/
lemma agentLoop_final (ex : Exec) (llm : LLM) (rest : List LLM)
    (system : String) (messages : List Message) (choice : Choice)
    (hres : llm (systemMessage system :: messages) = ModelResult.ok choice)
    (hfin : choice.finishReason ≠ "tool_calls") :
    agentLoop ex (llm :: rest) system messages
      = messages ++ [assistantMessage choice.message] := by
  simp [agentLoop, hres, hfin]

/-- Unfolding of a tool round in the interactive loop. -/
lemma agentLoop_round (ex : Exec) (llm : LLM) (rest : List LLM)
    (system : String) (messages : List Message) (choice : Choice)
    (hres : llm (systemMessage system :: messages) = ModelResult.ok choice)
    (hfin : choice.finishReason = "tool_calls") :
    agentLoop ex (llm :: rest) system messages
      = agentLoop ex rest system
          (messages ++ assistantMessage choice.message ::
            choice.message.toolCalls.map (execToolCall ex)) := by
  simp [agentLoop, hres, hfin]

/-- Unfolding of a failing model call in the registry-based loop. -/
lemma Run_fail (reg : Registry) (llm : LLM) (rest : List LLM)
    (messages : List Message) (e : String)
    (hres : llm messages = ModelResult.fail e) :
    Run reg (llm :: rest) messages
      = (messages, some ("API call failed: " ++ e)) := by
  simp [Run, hres]

/-- Unfolding of a parse-failure abort in the inner tool loop of the
registry-based loop. -/
lemma runToolCalls_parse_fail (reg : Registry) (tc : ToolCall)
    (rest : List ToolCall) (messages : List Message) (e : String)
    (harg : tc.arguments = ArgParse.fail e) :
    runToolCalls reg (tc :: rest) messages
      = Except.error
          (messages,
           "failed to parse tool args for " ++ tc.name ++ ": " ++ e) := by
  simp [runToolCalls, harg]

/-- A completed inner tool loop appends exactly one tool message per call,
id-correlated and in request order. -/
lemma runToolCalls_ok_shape (reg : Registry) (tcs : List ToolCall) :
    ∀ (messages msgs : List Message),
      runToolCalls reg tcs messages = Except.ok msgs →
      ∃ toolMsgs : List Message,
        msgs = messages ++ toolMsgs ∧
        toolMsgs.length = tcs.length ∧
        toolMsgs.map Message.toolCallId = tcs.map ToolCall.id ∧
        ∀ m ∈ toolMsgs, m.role = Role.tool := by
  induction tcs with
  | nil =>
    intro messages msgs h
    simp [runToolCalls] at h
    subst h
    exact ⟨[], by simp, by simp, by simp, by simp⟩
  | cons tc rest ih =>
    intro messages msgs h
    cases harg : tc.arguments with
    | fail e => simp [runToolCalls, harg] at h
    | ok args =>
      simp only [runToolCalls, harg] at h
      obtain ⟨tms, heq, hlen, hids, hrole⟩ :=
        ih (messages ++ [toolMessage (dispatchOutput reg tc args) tc.id])
          msgs h
      refine ⟨toolMessage (dispatchOutput reg tc args) tc.id :: tms,
        ?_, ?_, ?_, ?_⟩
      · simp [heq]
      · simp [hlen]
      · simp [toolMessage, hids]
      · intro m hm
        rcases List.mem_cons.mp hm with h1 | h2
        · subst h1; rfl
        · exact hrole m h2

/-- Length of the character-level truncation. -/
lemma strTake_length (s : String) (n : Nat) :
    (strTake s n).length = min n s.length := by
  show (s.data.take n).length = min n s.data.length
  simp

/-- A nonempty string by length. -/
lemma ne_empty_of_length_pos (s : String) (h : 0 < s.length) : s ≠ "" := by
  intro he
  subst he
  simp [String.length] at h

/-- The cap leaves short output unchanged. -/
lemma capOutput_short (s : String) (h : ¬ 50000 < s.length) :
    capOutput s = s := by
  simp [capOutput, h]

/-- The cap cuts long output to exactly the cap length. -/
lemma capOutput_length_long (s : String) (h : 50000 < s.length) :
    (capOutput s).length = 50000 := by
  rw [capOutput, if_pos h, strTake_length]
  omega

/-- Output shaping on success with whitespace-only output yields the
no-output sentinel. -/
lemma formatOutput_no_output (r : ExecResult) (herr : r.err = none)
    (htrim : trimSpace r.output = "") : formatOutput r = "(no output)" := by
  simp [formatOutput, herr, htrim]
  rfl

/-- Output shaping on a process error with whitespace-only output yields the
error description. -/
lemma formatOutput_err_empty (r : ExecResult) (e : String)
    (herr : r.err = some e) (htrim : trimSpace r.output = "") :
    formatOutput r = capOutput ("Error: " ++ e) := by
  have hne : ("Error: " ++ e) ≠ "" := by
    intro hc
    have hl := congrArg String.length hc
    rw [String.length_append] at hl
    have h7 : ("Error: " : String).length = 7 := rfl
    have h0 : ("" : String).length = 0 := rfl
    omega
  simp [formatOutput, herr, htrim, hne]

/-- Output shaping on a process error with visible output yields the trimmed
output itself. -/
lemma formatOutput_err_nonempty (r : ExecResult) (e : String)
    (herr : r.err = some e) (htrim : trimSpace r.output ≠ "") :
    formatOutput r = capOutput (trimSpace r.output) := by
  simp [formatOutput, herr, htrim]

/-- Output shaping on success with visible output yields the trimmed output
itself. -/
lemma formatOutput_success (r : ExecResult) (herr : r.err = none)
    (htrim : trimSpace r.output ≠ "") :
    formatOutput r = capOutput (trimSpace r.output) := by
  simp [formatOutput, herr, htrim]

/-- The gate branch of the interactive bash tool. -/
lemma runBashIn_blocked (ex : Exec) (command : String)
    (h : isDangerous command = true) :
    runBashIn ex command = "Error: Dangerous command blocked" := by
  simp [runBashIn, h]

/-- The execution branch of the interactive bash tool. -/
lemma runBashIn_allowed (ex : Exec) (command : String)
    (h : isDangerous command = false) :
    runBashIn ex command = formatOutput (ex command) := by
  simp [runBashIn, h]

/-- Sample subprocess oracle for witnesses: every command succeeds silently. -/
def exSilent : Exec := fun _ => ⟨"", none⟩

/-- Sample subprocess oracle for witnesses: `echo hello` prints, everything
else succeeds silently. -/
def exEcho : Exec := fun c =>
  if c = "echo hello" then ⟨"hello\n", none⟩ else ⟨"", none⟩

/-- Sample model client that always fails, mirroring the error client of the
test suite. -/
def llmFail : LLM := fun _ => ModelResult.fail "simulated API error"

/-- Sample registry holding the bash tool, mirroring the s01 registry main. -/
def sampleRegistry : Registry :=
  Registry.new.Register
    ⟨"bash", "Execute a bash command and return its output."⟩
    (bashHandler exEcho)

/-- Claim C3 (confirmed): if the model call itself fails, both agent loops
return a history with identical length and identical content to the history
held before that call — no partial appension from the failed call is visible
to the caller. -/
theorem claim_C3 :
    (∀ (ex : Exec) (llm : LLM) (rest : List LLM) (system : String)
        (messages : List Message) (e : String),
        llm (systemMessage system :: messages) = ModelResult.fail e →
        agentLoop ex (llm :: rest) system messages = messages)
  ∧ (∀ (reg : Registry) (llm : LLM) (rest : List LLM)
        (messages : List Message) (e : String),
        llm messages = ModelResult.fail e →
        Run reg (llm :: rest) messages
          = (messages, some ("API call failed: " ++ e))) := by
  constructor
  · intro ex llm rest system messages e hres
    exact agentLoop_fail ex llm rest system messages e hres
  · intro reg llm rest messages e hres
    exact Run_fail reg llm rest messages e hres

/-- Witness for claim C3 at a concrete failing model client. -/
theorem claim_C3_witness :
    llmFail (systemMessage "sys" :: [userMessage "q"])
        = ModelResult.fail "simulated API error"
  ∧ agentLoop exSilent [llmFail] "sys" [userMessage "q"] = [userMessage "q"]
  ∧ Run sampleRegistry [llmFail] [userMessage "q"]
      = ([userMessage "q"], some "API call failed: simulated API error") :=
  ⟨rfl,
   claim_C3.1 exSilent llmFail [] "sys" [userMessage "q"]
     "simulated API error" rfl,
   claim_C3.2 sampleRegistry llmFail [] [userMessage "q"]
     "simulated API error" rfl⟩

/-- Claim C8 (confirmed): registering a definition whose name is already
present overwrites the previous handler — a subsequent dispatch of that name
invokes the most recently registered handler — and dispatch of an
unregistered name signals the tool-not-found error without invoking any
handler. -/
theorem claim_C8 :
    (∀ (r : Registry) (d1 d2 : ToolDefinition) (h1 h2 : Handler)
        (name : String) (args : List (String × GoValue)),
        d1.name = name → d2.name = name →
        ((r.Register d1 h1).Register d2 h2).Dispatch name args = h2 args)
  ∧ (∀ (r : Registry) (name : String) (args : List (String × GoValue)),
        r.handlers name = none →
        r.Dispatch name args = Except.error ("unknown tool: " ++ name)) := by
  constructor
  · intro r d1 d2 h1 h2 name args hd1 hd2
    subst hd2
    simp [Registry.Register, Registry.Dispatch]
  · intro r name args h
    simp [Registry.Dispatch, h]

/-- Handler sample used by the C8 witness. -/
def handlerOne : Handler := fun _ => Except.ok "one"

/-- Second handler sample used by the C8 witness. -/
def handlerTwo : Handler := fun _ => Except.ok "two"

/-- Witness for claim C8 at a concrete double registration. -/
theorem claim_C8_witness :
    ((Registry.new.Register ⟨"bash", "first"⟩ handlerOne).Register
        ⟨"bash", "second"⟩ handlerTwo).Dispatch "bash" []
      = Except.ok "two"
  ∧ Registry.new.Dispatch "ls" [] = Except.error "unknown tool: ls" :=
  ⟨claim_C8.1 Registry.new ⟨"bash", "first"⟩ ⟨"bash", "second"⟩ handlerOne
     handlerTwo "bash" [] rfl rfl,
   claim_C8.2 Registry.new "ls" [] rfl⟩

/-- Claim C9 (confirmed): for every invocation of the interactive loop, the
input history is a prefix of the returned history, and no system-role
message is appended — the system prompt lives only in the per-call request
built inside the loop, never in the history handed back to the caller. -/
theorem claim_C9 (ex : Exec) (script : List LLM) (system : String)
    (messages : List Message) :
    ∃ extra : List Message,
      agentLoop ex script system messages = messages ++ extra ∧
      ∀ m ∈ extra, m.role ≠ Role.system := by
  induction script generalizing messages with
  | nil => exact ⟨[], by simp [agentLoop], by simp⟩
  | cons llm rest ih =>
    cases hres : llm (systemMessage system :: messages) with
    | fail e =>
      exact ⟨[],
        by simp [agentLoop_fail ex llm rest system messages e hres],
        by simp⟩
    | ok choice =>
      by_cases hfin : choice.finishReason = "tool_calls"
      · obtain ⟨extra, heq, hextra⟩ :=
          ih (messages ++ assistantMessage choice.message ::
              choice.message.toolCalls.map (execToolCall ex))
        refine ⟨(assistantMessage choice.message ::
            choice.message.toolCalls.map (execToolCall ex)) ++ extra,
          ?_, ?_⟩
        · rw [agentLoop_round ex llm rest system messages choice hres hfin,
            heq]
          simp
        · intro m hm
          rcases List.mem_append.mp hm with h1 | h2
          · rcases List.mem_cons.mp h1 with h3 | h4
            · rw [h3]
              simp [assistantMessage]
            · rcases List.mem_map.mp h4 with ⟨tc, _, htc⟩
              rw [← htc, execToolCall_role]
              simp
          · exact hextra m h2
      · refine ⟨[assistantMessage choice.message], ?_, ?_⟩
        · exact agentLoop_final ex llm rest system messages choice hres hfin
        · intro m hm
          rw [List.mem_singleton.mp hm]
          simp [assistantMessage]

/-- Claim C4 (confirmed): a model response carrying k tool requests that the
loop processes to completion of that round appends exactly k + 1 messages —
one assistant message followed by the k tool-result messages, id-correlated
and in the exact request order; this holds in both loop variants. -/
theorem claim_C4 :
    (∀ (ex : Exec) (llm : LLM) (rest : List LLM) (system : String)
        (messages : List Message) (choice : Choice),
        llm (systemMessage system :: messages) = ModelResult.ok choice →
        choice.finishReason = "tool_calls" →
        agentLoop ex (llm :: rest) system messages
          = agentLoop ex rest system
              (messages ++ assistantMessage choice.message ::
                choice.message.toolCalls.map (execToolCall ex)) ∧
        (assistantMessage choice.message ::
            choice.message.toolCalls.map (execToolCall ex)).length
          = choice.message.toolCalls.length + 1 ∧
        (choice.message.toolCalls.map (execToolCall ex)).map
            Message.toolCallId
          = choice.message.toolCalls.map ToolCall.id ∧
        ∀ m ∈ choice.message.toolCalls.map (execToolCall ex),
          m.role = Role.tool)
  ∧ (∀ (reg : Registry) (tcs : List ToolCall)
        (messages msgs : List Message),
        runToolCalls reg tcs messages = Except.ok msgs →
        ∃ toolMsgs : List Message,
          msgs = messages ++ toolMsgs ∧
          toolMsgs.length = tcs.length ∧
          toolMsgs.map Message.toolCallId = tcs.map ToolCall.id ∧
          ∀ m ∈ toolMsgs, m.role = Role.tool) := by
  constructor
  · intro ex llm rest system messages choice hres hfin
    refine ⟨agentLoop_round ex llm rest system messages choice hres hfin,
      ?_, ?_, ?_⟩
    · simp
    · rw [List.map_map]
      exact List.map_congr_left (fun tc _ => execToolCall_id ex tc)
    · intro m hm
      rcases List.mem_map.mp hm with ⟨tc, _, htc⟩
      rw [← htc]
      exact execToolCall_role ex tc
  · intro reg tcs messages msgs h
    exact runToolCalls_ok_shape reg tcs messages msgs h

/-- Tool call sample requesting `echo hello`, used in witnesses. -/
def tcEcho : ToolCall :=
  ⟨"call-1", "bash", ArgParse.ok [("command", GoValue.str "echo hello")]⟩

/-- Tool call sample requesting `true`, used in witnesses. -/
def tcTrue : ToolCall :=
  ⟨"call-2", "bash", ArgParse.ok [("command", GoValue.str "true")]⟩

/-- Model choice carrying two tool requests, used in witnesses. -/
def choiceTwoCalls : Choice := ⟨"tool_calls", ⟨"", [tcEcho, tcTrue]⟩⟩

/-- Model client returning the two-call choice, used in witnesses. -/
def llmTwoCalls : LLM := fun _ => ModelResult.ok choiceTwoCalls

/-- Witness for claim C4 at a concrete two-call round. -/
theorem claim_C4_witness :
    llmTwoCalls (systemMessage "sys" :: [userMessage "go"])
        = ModelResult.ok choiceTwoCalls
  ∧ choiceTwoCalls.finishReason = "tool_calls"
  ∧ agentLoop exEcho [llmTwoCalls] "sys" [userMessage "go"]
      = agentLoop exEcho [] "sys"
          ([userMessage "go"] ++ assistantMessage choiceTwoCalls.message ::
            choiceTwoCalls.message.toolCalls.map (execToolCall exEcho))
  ∧ runToolCalls sampleRegistry [tcEcho] [userMessage "go"]
      = Except.ok [userMessage "go", toolMessage "hello\n" "call-1"]
  ∧ ∃ toolMsgs : List Message,
      [userMessage "go", toolMessage "hello\n" "call-1"]
          = [userMessage "go"] ++ toolMsgs ∧
      toolMsgs.length = [tcEcho].length ∧
      toolMsgs.map Message.toolCallId = [tcEcho].map ToolCall.id ∧
      ∀ m ∈ toolMsgs, m.role = Role.tool := by
  refine ⟨rfl, rfl, ?_, rfl, ?_⟩
  · exact (claim_C4.1 exEcho llmTwoCalls [] "sys" [userMessage "go"]
      choiceTwoCalls rfl rfl).1
  · exact claim_C4.2 sampleRegistry [tcEcho] [userMessage "go"]
      [userMessage "go", toolMessage "hello\n" "call-1"] rfl

/-- Claim C10 (confirmed): in the interactive loop, tool-call arguments that
parse as valid structured data but lack a string command field are not
rejected as an argument error — the command defaults to the empty string,
bash executes it, and (bash succeeding silently on the empty command) the
tool-result message carries the no-output sentinel. -/
theorem claim_C10 (ex : Exec) (tc : ToolCall)
    (args : List (String × GoValue))
    (hargs : tc.arguments = ArgParse.ok args)
    (hmiss : args.lookup "command" = none ∨
      args.lookup "command" = some GoValue.other)
    (herr : (ex "").err = none) (htrim : trimSpace (ex "").output = "") :
    getCommand args = "" ∧
    execToolCall ex tc = toolMessage (runBashIn ex "") tc.id ∧
    runBashIn ex "" = "(no output)" := by
  have hcmd : getCommand args = "" := by
    rcases hmiss with h | h <;> simp [getCommand, h]
  have hrun : runBashIn ex "" = "(no output)" := by
    rw [runBashIn_allowed ex "" (by decide)]
    exact formatOutput_no_output (ex "") herr htrim
  refine ⟨hcmd, ?_, hrun⟩
  simp [execToolCall, hargs, hcmd]

/-- Tool call sample with well-formed arguments lacking a command field. -/
def tcNoCommand : ToolCall :=
  ⟨"c-10", "bash", ArgParse.ok [("cmd", GoValue.str "ls")]⟩

/-- Witness for claim C10 at a concrete command-less argument object. -/
theorem claim_C10_witness :
    tcNoCommand.arguments = ArgParse.ok [("cmd", GoValue.str "ls")]
  ∧ List.lookup "command" [("cmd", GoValue.str "ls")] = none
  ∧ (exSilent "").err = none
  ∧ trimSpace (exSilent "").output = ""
  ∧ getCommand [("cmd", GoValue.str "ls")] = ""
  ∧ execToolCall exSilent tcNoCommand = toolMessage "(no output)" "c-10"
  ∧ runBashIn exSilent "" = "(no output)" := by
  have h := claim_C10 exSilent tcNoCommand [("cmd", GoValue.str "ls")] rfl
    (Or.inl rfl) rfl rfl
  refine ⟨rfl, rfl, rfl, rfl, h.1, ?_, h.2.2⟩
  rw [h.2.1, h.2.2]
  rfl

/-- Tool call sample whose raw argument text failed to parse. -/
def tcBadJson : ToolCall := ⟨"bad-call", "bash", ArgParse.fail "invalid character"⟩

/-- Model choice requesting the malformed call. -/
def choiceBadJson : Choice := ⟨"tool_calls", ⟨"", [tcBadJson]⟩⟩

/-- Model client returning the malformed-call choice. -/
def llmBadJson : LLM := fun _ => ModelResult.ok choiceBadJson

/-- Model client returning a final text answer. -/
def llmDone : LLM := fun _ => ModelResult.ok ⟨"stop", ⟨"Handled error.", []⟩⟩

/-- Counterexample to claim C1 as stated: in the registry-based loop, a tool
call with malformed argument text aborts the loop and raises the parse error
to the caller — no error-tagged tool-result message is appended, and the
model is not requested again even though a further scripted response is
available. -/
theorem claim_C1_cex :
    Run sampleRegistry [llmBadJson, llmDone] [userMessage "hi"]
      = ([userMessage "hi", assistantMessage choiceBadJson.message],
         some "failed to parse tool args for bash: invalid character")
  ∧ (Run sampleRegistry [llmBadJson, llmDone] [userMessage "hi"]).2
      ≠ none := by
  refine ⟨rfl, ?_⟩
  intro h
  rw [show (Run sampleRegistry [llmBadJson, llmDone] [userMessage "hi"]).2
      = some "failed to parse tool args for bash: invalid character"
    from rfl] at h
  exact Option.noConfusion h

/-- Claim C1 (corrected): in the interactive loop, every tool call with
malformed argument text becomes exactly one error-tagged tool-result message
correlated by the call id, and the loop continues, requesting the model
again with the round appended; in the registry-based loop, by contrast, the
first malformed argument text aborts the round — the loop returns the
history accumulated so far together with the parse error, appending no
tool-result message for that call. -/
theorem claim_C1_amended :
    (∀ (ex : Exec) (tc : ToolCall) (e : String),
        tc.arguments = ArgParse.fail e →
        execToolCall ex tc = toolMessage ("error: " ++ e) tc.id)
  ∧ (∀ (ex : Exec) (llm : LLM) (rest : List LLM) (system : String)
        (messages : List Message) (choice : Choice),
        llm (systemMessage system :: messages) = ModelResult.ok choice →
        choice.finishReason = "tool_calls" →
        agentLoop ex (llm :: rest) system messages
          = agentLoop ex rest system
              (messages ++ assistantMessage choice.message ::
                choice.message.toolCalls.map (execToolCall ex)))
  ∧ (∀ (reg : Registry) (tc : ToolCall) (rest : List ToolCall)
        (messages : List Message) (e : String),
        tc.arguments = ArgParse.fail e →
        runToolCalls reg (tc :: rest) messages
          = Except.error
              (messages,
               "failed to parse tool args for " ++ tc.name ++ ": " ++ e)) := by
  refine ⟨?_, ?_, ?_⟩
  · intro ex tc e h
    simp [execToolCall, h]
  · intro ex llm rest system messages choice hres hfin
    exact agentLoop_round ex llm rest system messages choice hres hfin
  · intro reg tc rest messages e h
    exact runToolCalls_parse_fail reg tc rest messages e h

/-- Witness for the amended claim C1 at a concrete malformed call. -/
theorem claim_C1_witness :
    tcBadJson.arguments = ArgParse.fail "invalid character"
  ∧ execToolCall exSilent tcBadJson
      = toolMessage "error: invalid character" "bad-call"
  ∧ llmBadJson (systemMessage "sys" :: [userMessage "hi"])
      = ModelResult.ok choiceBadJson
  ∧ choiceBadJson.finishReason = "tool_calls"
  ∧ agentLoop exSilent [llmBadJson] "sys" [userMessage "hi"]
      = agentLoop exSilent [] "sys"
          ([userMessage "hi"] ++ assistantMessage choiceBadJson.message ::
            choiceBadJson.message.toolCalls.map (execToolCall exSilent))
  ∧ runToolCalls sampleRegistry [tcBadJson] [userMessage "hi"]
      = Except.error
          ([userMessage "hi"],
           "failed to parse tool args for bash: invalid character") := by
  refine ⟨rfl, ?_, rfl, rfl, ?_, ?_⟩
  · exact claim_C1_amended.1 exSilent tcBadJson "invalid character" rfl
  · exact claim_C1_amended.2.1 exSilent llmBadJson [] "sys"
      [userMessage "hi"] choiceBadJson rfl rfl
  · exact claim_C1_amended.2.2 sampleRegistry tcBadJson [] [userMessage "hi"]
      "invalid character" rfl

/-- Subprocess oracle pretending `sudo ls` runs and lists a file. -/
def exListA : Exec := fun _ => ⟨"fileA", none⟩

/-- Second oracle with a different listing, to exhibit oracle dependence. -/
def exListB : Exec := fun _ => ⟨"fileB", none⟩

/-- Parsed arguments carrying a blocklisted command. -/
def sudoArgs : List (String × GoValue) := [("command", GoValue.str "sudo ls")]

/-- Counterexample to claim C2 as stated: the registry-based bash handler
applies no blocklist — on a command containing `sudo` it returns the
executed output, not the blocked sentinel, and its result depends on the
subprocess oracle, so a subprocess is spawned. -/
theorem claim_C2_cex :
    isDangerous "sudo ls" = true
  ∧ bashHandler exListA sudoArgs = Except.ok "fileA"
  ∧ bashHandler exListA sudoArgs
      ≠ Except.ok "Error: Dangerous command blocked"
  ∧ bashHandler exListA sudoArgs ≠ bashHandler exListB sudoArgs := by
  refine ⟨by decide, rfl, ?_, ?_⟩
  · intro h
    exact absurd (Except.ok.inj h) (by decide)
  · intro h
    exact absurd (Except.ok.inj h) (by decide)

/-- Claim C2 (corrected): for every command containing a blocklisted
substring, the interactive bash tool returns exactly the fixed blocked
sentinel, for every subprocess oracle — so no subprocess is consulted; the
registry-based bash handler, however, applies no blocklist and executes the
command unconditionally. -/
theorem claim_C2_amended :
    (∀ (ex : Exec) (command : String),
        isDangerous command = true →
        runBashIn ex command = "Error: Dangerous command blocked")
  ∧ (∀ (ex : Exec) (command : String),
        isDangerous command = true →
        bashHandler ex [("command", GoValue.str command)]
          = Except.ok (bashExecute ex command)) := by
  constructor
  · intro ex command h
    exact runBashIn_blocked ex command h
  · intro ex command h
    rfl

/-- Witness for the amended claim C2 at a concrete blocklisted command. -/
theorem claim_C2_witness :
    isDangerous "sudo ls" = true
  ∧ runBashIn exListA "sudo ls" = "Error: Dangerous command blocked"
  ∧ bashHandler exListA [("command", GoValue.str "sudo ls")]
      = Except.ok (bashExecute exListA "sudo ls") :=
  ⟨by decide,
   claim_C2_amended.1 exListA "sudo ls" (by decide),
   claim_C2_amended.2 exListA "sudo ls" (by decide)⟩

/-- Captured output one character beyond the registry cap. -/
def longOut : String := ⟨List.replicate 4001 'x'⟩

/-- Oracle producing the 4001-character output. -/
def exLong : Exec := fun _ => ⟨longOut, none⟩

/-- Length of the 4001-character output. -/
lemma longOut_length : longOut.length = 4001 := by
  show longOut.data.length = 4001
  rw [show longOut.data = List.replicate 4001 'x' from rfl,
    List.length_replicate]

/-- Counterexample to claim C5 as stated: the registry-based bash handler
truncates successful output at 4000 characters and appends a truncation
marker, so on a 4001-character capture the returned text has length 4015 —
neither the 4000 cap of this variant nor the 50000 cap of the spec. -/
theorem claim_C5_cex :
    bashHandler exLong [("command", GoValue.str "gen")]
      = Except.ok (strTake longOut 4000 ++ "\n...(truncated)")
  ∧ (strTake longOut 4000 ++ "\n...(truncated)").length = 4015
  ∧ (4015 : Nat) ≠ 4000 ∧ (4015 : Nat) ≠ 50000 := by
  refine ⟨?_, ?_, by decide, by decide⟩
  · simp [bashHandler, bashExecute, exLong, longOut_length]
  · rw [String.length_append, strTake_length, longOut_length]
    decide

/-- Claim C5 (corrected): in the interactive variant, every capture whose
trimmed text exceeds the 50000-character cap is returned with length
exactly the cap and no marker; the registry-based bash handler instead caps
successful output at 4000 characters and appends the marker
`\n...(truncated)`. -/
theorem claim_C5_amended :
    (∀ (ex : Exec) (command : String),
        isDangerous command = false →
        50000 < (trimSpace (ex command).output).length →
        (runBashIn ex command).length = 50000)
  ∧ (∀ (ex : Exec) (command : String),
        (ex command).err = none →
        4000 < (ex command).output.length →
        bashHandler ex [("command", GoValue.str command)]
          = Except.ok
              (strTake (ex command).output 4000 ++ "\n...(truncated)")) := by
  constructor
  · intro ex command hgate hlen
    rw [runBashIn_allowed ex command hgate]
    have hne : trimSpace (ex command).output ≠ "" :=
      ne_empty_of_length_pos _ (by omega)
    cases herr : (ex command).err with
    | none =>
      rw [formatOutput_success (ex command) herr hne]
      exact capOutput_length_long _ hlen
    | some e =>
      rw [formatOutput_err_nonempty (ex command) e herr hne]
      exact capOutput_length_long _ hlen
  · intro ex command herr hlen
    simp [bashHandler, bashExecute, herr, hlen]

/-- Captured output one character beyond the interactive cap. -/
def hugeOut : String := ⟨List.replicate 50001 'y'⟩

/-- Oracle producing the 50001-character output. -/
def exHuge : Exec := fun _ => ⟨hugeOut, none⟩

/-- Dropping whitespace from an all-y list is the identity. -/
lemma dropWhile_replicate_y (n : Nat) :
    (List.replicate n 'y').dropWhile Char.isWhitespace
      = List.replicate n 'y' := by
  cases n with
  | zero => rfl
  | succ k =>
    rw [List.replicate_succ 'y' k, List.dropWhile_cons, if_neg (by decide)]

/-- The huge output has no surrounding whitespace. -/
lemma trimSpace_hugeOut : trimSpace hugeOut = hugeOut := by
  unfold trimSpace
  rw [show hugeOut.data = List.replicate 50001 'y' from rfl,
    dropWhile_replicate_y, List.reverse_replicate, dropWhile_replicate_y,
    List.reverse_replicate]
  rfl

/-- Length of the huge output. -/
lemma hugeOut_length : hugeOut.length = 50001 := by
  show hugeOut.data.length = 50001
  rw [show hugeOut.data = List.replicate 50001 'y' from rfl,
    List.length_replicate]

/-- Witness for the amended claim C5 at concrete over-cap outputs. -/
theorem claim_C5_witness :
    isDangerous "seq 1 100000" = false
  ∧ 50000 < (trimSpace (exHuge "seq 1 100000").output).length
  ∧ (runBashIn exHuge "seq 1 100000").length = 50000
  ∧ (exLong "gen").err = none
  ∧ 4000 < (exLong "gen").output.length
  ∧ bashHandler exLong [("command", GoValue.str "gen")]
      = Except.ok
          (strTake (exLong "gen").output 4000 ++ "\n...(truncated)") := by
  have hbig : 50000 < (trimSpace (exHuge "seq 1 100000").output).length := by
    show 50000 < (trimSpace hugeOut).length
    rw [trimSpace_hugeOut, hugeOut_length]
    omega
  have hlong : 4000 < (exLong "gen").output.length := by
    show 4000 < longOut.length
    rw [longOut_length]
    omega
  exact ⟨by decide, hbig,
    claim_C5_amended.1 exHuge "seq 1 100000" (by decide) hbig,
    rfl, hlong,
    claim_C5_amended.2 exLong "gen" rfl hlong⟩

/-- Counterexample to claim C6 as stated: the registry-based bash handler
performs no trimming and no sentinel substitution — a successful command
with empty captured output yields the empty string, not the sentinel. -/
theorem claim_C6_cex :
    bashHandler exSilent [("command", GoValue.str "true")] = Except.ok ""
  ∧ ("" : String) ≠ "(no output)" := by
  exact ⟨rfl, by decide⟩

/-- Claim C6 (corrected): in the interactive variant, a command that
executes successfully with whitespace-only captured output yields exactly
the no-output sentinel, never the empty string; the registry-based bash
handler instead returns the raw captured output unchanged, which may be
empty. -/
theorem claim_C6_amended :
    (∀ (ex : Exec) (command : String),
        isDangerous command = false →
        (ex command).err = none →
        trimSpace (ex command).output = "" →
        runBashIn ex command = "(no output)")
  ∧ (∀ (ex : Exec) (command : String),
        (ex command).err = none →
        ¬ 4000 < (ex command).output.length →
        bashHandler ex [("command", GoValue.str command)]
          = Except.ok (ex command).output) := by
  constructor
  · intro ex command hgate herr htrim
    rw [runBashIn_allowed ex command hgate]
    exact formatOutput_no_output (ex command) herr htrim
  · intro ex command herr hlen
    simp [bashHandler, bashExecute, herr, hlen]

/-- Witness for the amended claim C6 at a concrete silent success. -/
theorem claim_C6_witness :
    isDangerous "true" = false
  ∧ (exSilent "true").err = none
  ∧ trimSpace (exSilent "true").output = ""
  ∧ runBashIn exSilent "true" = "(no output)"
  ∧ bashHandler exSilent [("command", GoValue.str "true")]
      = Except.ok "" :=
  ⟨by decide, rfl, rfl,
   claim_C6_amended.1 exSilent "true" (by decide) rfl rfl,
   claim_C6_amended.2 exSilent "true" rfl (by decide)⟩

/-- Oracle for a command failing with visible output. -/
def exGitErr : Exec := fun _ => ⟨"fatal: not a repo", some "exit status 128"⟩

/-- Oracle for a command failing silently. -/
def exFailSilent : Exec := fun _ => ⟨"", some "exit status 1"⟩

/-- Counterexample to claim C7 as stated: on a non-zero exit with non-empty
captured output, the registry-based bash handler does not return the
captured output itself — it returns a formatted string embedding the
process error. -/
theorem claim_C7_cex :
    bashHandler exGitErr [("command", GoValue.str "git log")]
      = Except.ok "exit error: exit status 128\nfatal: not a repo"
  ∧ ("exit error: exit status 128\nfatal: not a repo" : String)
      ≠ "fatal: not a repo" := by
  exact ⟨rfl, by decide⟩

/-- Claim C7 (corrected): in the interactive variant, a non-zero exit with
empty trimmed output yields an error description embedding the process
error, and a non-zero exit with non-empty output yields the captured
(trimmed, capped) output itself; the registry-based bash handler instead
always returns `exit error: <err>` followed by the raw output, whether or
not the output is empty. -/
theorem claim_C7_amended :
    (∀ (ex : Exec) (command e : String),
        isDangerous command = false →
        (ex command).err = some e →
        trimSpace (ex command).output = "" →
        runBashIn ex command = capOutput ("Error: " ++ e))
  ∧ (∀ (ex : Exec) (command e : String),
        isDangerous command = false →
        (ex command).err = some e →
        trimSpace (ex command).output ≠ "" →
        runBashIn ex command = capOutput (trimSpace (ex command).output))
  ∧ (∀ (ex : Exec) (command e : String),
        (ex command).err = some e →
        bashHandler ex [("command", GoValue.str command)]
          = Except.ok
              ("exit error: " ++ e ++ "\n" ++ (ex command).output)) := by
  refine ⟨?_, ?_, ?_⟩
  · intro ex command e hgate herr htrim
    rw [runBashIn_allowed ex command hgate]
    exact formatOutput_err_empty (ex command) e herr htrim
  · intro ex command e hgate herr htrim
    rw [runBashIn_allowed ex command hgate]
    exact formatOutput_err_nonempty (ex command) e herr htrim
  · intro ex command e herr
    simp [bashHandler, bashExecute, herr]

/-- Witness for the amended claim C7 at concrete failing commands. -/
theorem claim_C7_witness :
    isDangerous "false" = false
  ∧ (exFailSilent "false").err = some "exit status 1"
  ∧ trimSpace (exFailSilent "false").output = ""
  ∧ runBashIn exFailSilent "false" = "Error: exit status 1"
  ∧ (exGitErr "git log").err = some "exit status 128"
  ∧ trimSpace (exGitErr "git log").output ≠ ""
  ∧ runBashIn exGitErr "git log" = "fatal: not a repo"
  ∧ bashHandler exGitErr [("command", GoValue.str "git log")]
      = Except.ok "exit error: exit status 128\nfatal: not a repo" :=
  ⟨by decide, rfl, rfl,
   claim_C7_amended.1 exFailSilent "false" "exit status 1" (by decide) rfl
     rfl,
   rfl, by decide,
   claim_C7_amended.2.1 exGitErr "git log" "exit status 128" (by decide)
     rfl (by decide),
   claim_C7_amended.2.2 exGitErr "git log" "exit status 128" rfl⟩

end LearnCC
